import Mathlib

/-!
Verification of the multiservices_mgr financial-ledger data layer.

The development shallowly embeds:
* `backend/app/config.py` — the `Settings` record, its `cors_origins`
  property, and the `lru_cache`-backed `get_settings` accessor;
* `backend/app/models/{service,revenue,expense}.py` — the declared column
  constraints (nullability, uniqueness, foreign keys, defaults, timestamp
  conventions) of the three entities, together with the insert/update
  semantics of the underlying relational store acting on those declarations.

Monetary amounts (SQL `Float`) are modelled as `Int`, datetimes and dates as
`Nat` instants; `None`/NULL is `Option`.
-/

namespace Config

/-- The whitespace characters stripped by Python's `str.strip()`. -/
def pyIsSpace (c : Char) : Bool :=
  c == ' ' || c == '\t' || c == '\n' || c == '\r' || c == '\x0b' || c == '\x0c'

/-- Embedding of Python's `str.strip()`: drop leading and trailing whitespace. -/
def pyStrip (s : String) : String :=
  ⟨((s.data.dropWhile pyIsSpace).reverse.dropWhile pyIsSpace).reverse⟩

/-- Embedding of Python's `str.split(sep)` for a one-character separator,
on the underlying character list.  Splitting the empty list yields `[[]]`,
and every separator occurrence starts a new (possibly empty) segment,
exactly as in Python. -/
def splitChar (sep : Char) : List Char → List (List Char)
  | [] => [[]]
  | c :: rest =>
    if c == sep then
      [] :: splitChar sep rest
    else
      match splitChar sep rest with
      | [] => [[c]]
      | h :: t => (c :: h) :: t

/-- Embedding of the settings record from `backend/app/config.py`
(`class Settings(BaseSettings)`), with the field defaults declared there. -/
structure Settings where
  app_name : String := "Meilleur Insights API"
  debug : Bool := true
  database_url : String := "sqlite+aiosqlite:///./meilleur_insights.db"
  secret_key : String := "your-super-secret-key-change-this-in-production"
  algorithm : String := "HS256"
  access_token_expire_minutes : Int := 30
  allowed_origins : String := "http://localhost:8080,http://localhost:5173"
deriving Repr, DecidableEq

/-- The `cors_origins` property of `Settings`:
`[origin.strip() for origin in self.allowed_origins.split(",")]`. -/
def Settings.cors_origins (s : Settings) : List String :=
  (splitChar ',' s.allowed_origins.data).map (fun cs => pyStrip ⟨cs⟩)

/-- An environment, as read by `pydantic_settings.BaseSettings`: a mapping
from variable names to string values. -/
def Env : Type := List (String × String)

/-- One field of `Settings()` construction: take the environment value for
the field's variable when present, else the declared default.
The library's string-to-field coercion is modelled as identity on the
string-typed fields; non-string fields here only ever take their defaults
in the theorems below, so their parsers are modelled from the spec
("environment-driven configuration") as simple literal parsers. -/
def envStr (e : Env) (key dflt : String) : String :=
  match e.lookup key with
  | some v => v
  | none => dflt

/-- Boolean environment parsing (pydantic accepts `true/false`-like
literals); modelled from the spec's "debug flag (bool)". -/
def envBool (e : Env) (key : String) (dflt : Bool) : Bool :=
  match e.lookup key with
  | some v => v == "true" || v == "True" || v == "1"
  | none => dflt

/-- Integer environment parsing; modelled from the spec's
"access-token expiry in minutes (int)". -/
def envInt (e : Env) (key : String) (dflt : Int) : Int :=
  match e.lookup key with
  | some v => (v.toInt?).getD dflt
  | none => dflt

/-- Constructing `Settings()` from the process environment: each field is
read from its environment variable, falling back to the default declared in
`backend/app/config.py`. -/
def mkSettings (e : Env) : Settings :=
  { app_name := envStr e "app_name" "Meilleur Insights API"
    debug := envBool e "debug" true
    database_url := envStr e "database_url" "sqlite+aiosqlite:///./meilleur_insights.db"
    secret_key := envStr e "secret_key" "your-super-secret-key-change-this-in-production"
    algorithm := envStr e "algorithm" "HS256"
    access_token_expire_minutes := envInt e "access_token_expire_minutes" 30
    allowed_origins := envStr e "allowed_origins" "http://localhost:8080,http://localhost:5173" }

/-- The process-wide memo cell installed by `@lru_cache()` on
`get_settings` (the function takes no arguments, so the cache holds at most
one entry). -/
structure CacheState where
  cached : Option Settings
deriving Repr, DecidableEq

/-- The cache state at process start: nothing cached yet. -/
def initialCache : CacheState := ⟨none⟩

/-- Embedding of `get_settings()` from `backend/app/config.py`: on a cache
hit return the cached instance unchanged; on a miss construct `Settings()`
from the environment and cache it. -/
def get_settings (e : Env) (st : CacheState) : Settings × CacheState :=
  match st.cached with
  | some s => (s, st)
  | none =>
    let s := mkSettings e
    (s, ⟨some s⟩)

end Config

namespace Ledger

/-- The error taxonomy of the store (spec section 7): constraint violations
(missing required field, uniqueness conflict, dangling foreign key) and
not-found. -/
inductive DBError where
  | missingRequired (field : String)
  | uniqueViolation (field : String)
  | fkViolation (field : String)
  | notFound
deriving Repr, DecidableEq

/-- A persisted row of the `services` table
(`backend/app/models/service.py`).  Column nullability and defaults follow
the `mapped_column` declarations: `name` is `NOT NULL UNIQUE`,
`description` nullable, `icon`/`color`/`is_active` and the targets have
defaults, `created_at`/`updated_at` are timestamps. -/
structure Service where
  id : Nat
  name : String
  description : Option String
  icon : String
  color : String
  is_active : Bool
  daily_target : Int
  monthly_target : Int
  yearly_target : Int
  created_at : Nat
  updated_at : Nat
deriving Repr, DecidableEq

/-- A persisted row of the `revenues` table
(`backend/app/models/revenue.py`).  `service_id` is declared
`Mapped[int]` with no `nullable=True`, hence `NOT NULL` with a foreign key
to `services.id`; `amount` and `date` are `NOT NULL`; `description` and
`reference` are nullable; `payment_method` defaults to `"cash"`;
`created_by` is a nullable foreign key to `users.id`. -/
structure Revenue where
  id : Nat
  service_id : Nat
  amount : Int
  date : Nat
  description : Option String
  payment_method : String
  reference : Option String
  created_by : Option Nat
  created_at : Nat
  updated_at : Nat
deriving Repr, DecidableEq

/-- A persisted row of the `expenses` table
(`backend/app/models/expense.py`).  `service_id` is declared with
`nullable=True`, so it is an optional foreign key to `services.id`;
`amount`, `date` and `category` are `NOT NULL`; `description` and `vendor`
are nullable; `is_recurring` defaults to false; `created_by` is a nullable
foreign key to `users.id`. -/
structure Expense where
  id : Nat
  service_id : Option Nat
  amount : Int
  date : Nat
  category : String
  description : Option String
  vendor : Option String
  is_recurring : Bool
  created_by : Option Nat
  created_at : Nat
  updated_at : Nat
deriving Repr, DecidableEq

/-- The relational store holding the three modelled tables, plus the ids of
the `users` table (the User entity itself lives in `models/user.py`, which
is referenced by the foreign keys but not part of the shown sources; only
its primary keys matter here).  Each table carries its autoincrement
counter. -/
structure Store where
  services : List Service
  revenues : List Revenue
  expenses : List Expense
  userIds : List Nat
  nextServiceId : Nat
  nextRevenueId : Nat
  nextExpenseId : Nat
deriving Repr, DecidableEq

/-- The store of a freshly created database: empty tables, autoincrement
counters at 1. -/
def emptyStore : Store :=
  { services := [], revenues := [], expenses := [], userIds := []
    nextServiceId := 1, nextRevenueId := 1, nextExpenseId := 1 }

/-- Whether a `services.id` value is present (resolution of the
`ForeignKey("services.id")` declarations). -/
def serviceExists (st : Store) (sid : Nat) : Bool :=
  st.services.any (fun x => x.id == sid)

/-- Whether a `users.id` value is present (resolution of the
`ForeignKey("users.id")` declarations). -/
def userExists (st : Store) (uid : Nat) : Bool :=
  st.userIds.any (fun u => u == uid)

/-- A nullable `created_by` column is consistent: either NULL or resolving
to an existing user. -/
def createdByOk (st : Store) : Option Nat → Bool
  | none => true
  | some uid => userExists st uid

/-- A nullable `service_id` column is consistent: either NULL or resolving
to an existing service. -/
def serviceIdOk (st : Store) : Option Nat → Bool
  | none => true
  | some sid => serviceExists st sid

/-- The field values supplied when inserting a Service row: `name` has no
default and no `nullable=True`, so omitting it is a missing-required-field
violation; every other insertable column is either nullable or has a
declared default. -/
structure ServiceInput where
  name : Option String
  description : Option String
  icon : Option String
  color : Option String
  is_active : Option Bool
  daily_target : Option Int
  monthly_target : Option Int
  yearly_target : Option Int
deriving Repr, DecidableEq

/-- The field values supplied when inserting a Revenue row.  `service_id`,
`amount` and `date` are required (`NOT NULL`, no default); the rest are
nullable or defaulted. -/
structure RevenueInput where
  service_id : Option Nat
  amount : Option Int
  date : Option Nat
  description : Option String
  payment_method : Option String
  reference : Option String
  created_by : Option Nat
deriving Repr, DecidableEq

/-- The field values supplied when inserting an Expense row.  `amount`,
`date` and `category` are required (`NOT NULL`, no default); `service_id`
is nullable, `is_recurring` defaults to false. -/
structure ExpenseInput where
  service_id : Option Nat
  amount : Option Int
  date : Option Nat
  category : Option String
  description : Option String
  vendor : Option String
  is_recurring : Option Bool
  created_by : Option Nat
deriving Repr, DecidableEq

/-- Modelled from the spec: the store-level Insert operation on the
`services` table ("constraint violations (missing required field, duplicate
unique Service.name, foreign-key reference to nonexistent Service/User)
fail with a constraint-violation error; success returns the persisted
record with generated id and timestamps populated").  The constraint set is
the one declared in `backend/app/models/service.py`: `name` required and
unique; defaults `building`/`blue`/true/0.0; `created_at` and `updated_at`
set to the insertion time.  On failure the store is returned unchanged. -/
def insertService (st : Store) (now : Nat) (inp : ServiceInput) :
    Except DBError Service × Store :=
  match inp.name with
  | none => (.error (.missingRequired "name"), st)
  | some nm =>
    if st.services.any (fun x => x.name == nm) then
      (.error (.uniqueViolation "name"), st)
    else
      let svc : Service :=
        { id := st.nextServiceId
          name := nm
          description := inp.description
          icon := inp.icon.getD "building"
          color := inp.color.getD "blue"
          is_active := inp.is_active.getD true
          daily_target := inp.daily_target.getD 0
          monthly_target := inp.monthly_target.getD 0
          yearly_target := inp.yearly_target.getD 0
          created_at := now
          updated_at := now }
      (.ok svc,
       { st with services := st.services ++ [svc]
                 nextServiceId := st.nextServiceId + 1 })

/-- Modelled from the spec: the store-level Insert operation on the
`revenues` table, enforcing the constraints declared in
`backend/app/models/revenue.py`: `service_id`, `amount`, `date` required;
`service_id` must resolve to an existing service and a non-null
`created_by` to an existing user; `payment_method` defaults to `"cash"`;
timestamps set to the insertion time.  On failure the store is returned
unchanged. -/
def insertRevenue (st : Store) (now : Nat) (inp : RevenueInput) :
    Except DBError Revenue × Store :=
  match inp.service_id with
  | none => (.error (.missingRequired "service_id"), st)
  | some sid =>
  match inp.amount with
  | none => (.error (.missingRequired "amount"), st)
  | some amt =>
  match inp.date with
  | none => (.error (.missingRequired "date"), st)
  | some d =>
    if !serviceExists st sid then
      (.error (.fkViolation "service_id"), st)
    else if !createdByOk st inp.created_by then
      (.error (.fkViolation "created_by"), st)
    else
      let rec_ : Revenue :=
        { id := st.nextRevenueId
          service_id := sid
          amount := amt
          date := d
          description := inp.description
          payment_method := inp.payment_method.getD "cash"
          reference := inp.reference
          created_by := inp.created_by
          created_at := now
          updated_at := now }
      (.ok rec_,
       { st with revenues := st.revenues ++ [rec_]
                 nextRevenueId := st.nextRevenueId + 1 })

/-- Modelled from the spec: the store-level Insert operation on the
`expenses` table, enforcing the constraints declared in
`backend/app/models/expense.py`: `amount`, `date`, `category` required;
`service_id` nullable, but a non-null value must resolve to an existing
service, as must a non-null `created_by` to a user; `is_recurring`
defaults to false; timestamps set to the insertion time.  On failure the
store is returned unchanged. -/
def insertExpense (st : Store) (now : Nat) (inp : ExpenseInput) :
    Except DBError Expense × Store :=
  match inp.amount with
  | none => (.error (.missingRequired "amount"), st)
  | some amt =>
  match inp.date with
  | none => (.error (.missingRequired "date"), st)
  | some d =>
  match inp.category with
  | none => (.error (.missingRequired "category"), st)
  | some cat =>
    if !serviceIdOk st inp.service_id then
      (.error (.fkViolation "service_id"), st)
    else if !createdByOk st inp.created_by then
      (.error (.fkViolation "created_by"), st)
    else
      let rec_ : Expense :=
        { id := st.nextExpenseId
          service_id := inp.service_id
          amount := amt
          date := d
          category := cat
          description := inp.description
          vendor := inp.vendor
          is_recurring := inp.is_recurring.getD false
          created_by := inp.created_by
          created_at := now
          updated_at := now }
      (.ok rec_,
       { st with expenses := st.expenses ++ [rec_]
                 nextExpenseId := st.nextExpenseId + 1 })

/-- The mutable column values of a Service row for an Update: every column
except the primary key and the timestamps (`created_at` is set once at
insertion; `updated_at` is maintained by `onupdate=datetime.utcnow`). -/
structure ServiceData where
  name : String
  description : Option String
  icon : String
  color : String
  is_active : Bool
  daily_target : Int
  monthly_target : Int
  yearly_target : Int
deriving Repr, DecidableEq

/-- The mutable column values of a Revenue row for an Update. -/
structure RevenueData where
  service_id : Nat
  amount : Int
  date : Nat
  description : Option String
  payment_method : String
  reference : Option String
  created_by : Option Nat
deriving Repr, DecidableEq

/-- The mutable column values of an Expense row for an Update. -/
structure ExpenseData where
  service_id : Option Nat
  amount : Int
  date : Nat
  category : String
  description : Option String
  vendor : Option String
  is_recurring : Bool
  created_by : Option Nat
deriving Repr, DecidableEq

/-- Overwrite the mutable columns of a Service row and refresh
`updated_at` (the `onupdate=datetime.utcnow` convention); `id` and
`created_at` are untouched. -/
def serviceSet (now : Nat) (d : ServiceData) (x : Service) : Service :=
  { x with name := d.name, description := d.description, icon := d.icon
           color := d.color, is_active := d.is_active
           daily_target := d.daily_target, monthly_target := d.monthly_target
           yearly_target := d.yearly_target, updated_at := now }

/-- Overwrite the mutable columns of a Revenue row and refresh
`updated_at`; `id` and `created_at` are untouched. -/
def revenueSet (now : Nat) (d : RevenueData) (x : Revenue) : Revenue :=
  { x with service_id := d.service_id, amount := d.amount, date := d.date
           description := d.description, payment_method := d.payment_method
           reference := d.reference, created_by := d.created_by
           updated_at := now }

/-- Overwrite the mutable columns of an Expense row and refresh
`updated_at`; `id` and `created_at` are untouched. -/
def expenseSet (now : Nat) (d : ExpenseData) (x : Expense) : Expense :=
  { x with service_id := d.service_id, amount := d.amount, date := d.date
           category := d.category, description := d.description
           vendor := d.vendor, is_recurring := d.is_recurring
           created_by := d.created_by, updated_at := now }

/-- Modelled from the spec: the store-level Update operation on the
`services` table ("Update: mutates a persisted record, refreshes
updated_at; fails if the record does not exist or a constraint (e.g.,
uniqueness) would be violated").  The uniqueness constraint is the
`unique=True` on `Service.name`; the row is looked up by primary key.
On failure the store is returned unchanged. -/
def updateService (st : Store) (now sid : Nat) (d : ServiceData) :
    Except DBError Service × Store :=
  match st.services.find? (fun x => x.id == sid) with
  | none => (.error .notFound, st)
  | some x0 =>
    if st.services.any (fun x => x.id != sid && x.name == d.name) then
      (.error (.uniqueViolation "name"), st)
    else
      (.ok (serviceSet now d x0),
       { st with services :=
           st.services.map (fun x => if x.id == sid then serviceSet now d x else x) })

/-- Modelled from the spec: the store-level Update operation on the
`revenues` table; the foreign-key constraints of
`backend/app/models/revenue.py` (`service_id` to `services.id`,
`created_by` to `users.id`) are re-checked against the updated values.
On failure the store is returned unchanged. -/
def updateRevenue (st : Store) (now rid : Nat) (d : RevenueData) :
    Except DBError Revenue × Store :=
  match st.revenues.find? (fun x => x.id == rid) with
  | none => (.error .notFound, st)
  | some x0 =>
    if !serviceExists st d.service_id then
      (.error (.fkViolation "service_id"), st)
    else if !createdByOk st d.created_by then
      (.error (.fkViolation "created_by"), st)
    else
      (.ok (revenueSet now d x0),
       { st with revenues :=
           st.revenues.map (fun x => if x.id == rid then revenueSet now d x else x) })

/-- Modelled from the spec: the store-level Update operation on the
`expenses` table; the foreign-key constraints of
`backend/app/models/expense.py` are re-checked against the updated values
(`service_id` may be set to NULL since it is nullable).  On failure the
store is returned unchanged. -/
def updateExpense (st : Store) (now eid : Nat) (d : ExpenseData) :
    Except DBError Expense × Store :=
  match st.expenses.find? (fun x => x.id == eid) with
  | none => (.error .notFound, st)
  | some x0 =>
    if !serviceIdOk st d.service_id then
      (.error (.fkViolation "service_id"), st)
    else if !createdByOk st d.created_by then
      (.error (.fkViolation "created_by"), st)
    else
      (.ok (expenseSet now d x0),
       { st with expenses :=
           st.expenses.map (fun x => if x.id == eid then expenseSet now d x else x) })

/-- One store transition: a successful insert or update on one of the three
modelled tables, or the registration of a new user id (modelled from the
spec: the User entity of `models/user.py` is not among the shown sources;
for the foreign-key checks only the existence of its ids matters).
Failed operations leave the store unchanged, so they induce no transition.
Deletion is deliberately absent: the spec leaves cascade behavior
unspecified ("cascade behavior unspecified in the excerpt"). -/
inductive Step : Store → Store → Prop where
  | addUser (st : Store) (uid : Nat) :
      Step st { st with userIds := st.userIds ++ [uid] }
  | insertServiceOk (st : Store) (now : Nat) (inp : ServiceInput)
      (r : Service) (st2 : Store) :
      insertService st now inp = (.ok r, st2) → Step st st2
  | insertRevenueOk (st : Store) (now : Nat) (inp : RevenueInput)
      (r : Revenue) (st2 : Store) :
      insertRevenue st now inp = (.ok r, st2) → Step st st2
  | insertExpenseOk (st : Store) (now : Nat) (inp : ExpenseInput)
      (r : Expense) (st2 : Store) :
      insertExpense st now inp = (.ok r, st2) → Step st st2
  | updateServiceOk (st : Store) (now sid : Nat) (d : ServiceData)
      (r : Service) (st2 : Store) :
      updateService st now sid d = (.ok r, st2) → Step st st2
  | updateRevenueOk (st : Store) (now rid : Nat) (d : RevenueData)
      (r : Revenue) (st2 : Store) :
      updateRevenue st now rid d = (.ok r, st2) → Step st st2
  | updateExpenseOk (st : Store) (now eid : Nat) (d : ExpenseData)
      (r : Expense) (st2 : Store) :
      updateExpense st now eid d = (.ok r, st2) → Step st st2

/-- The store states reachable from a fresh database through the modelled
operations. -/
inductive Reachable : Store → Prop where
  | init : Reachable emptyStore
  | step {s s2 : Store} : Reachable s → Step s s2 → Reachable s2

end Ledger

namespace Ledger

theorem insertService_ok {st : Store} {now : Nat} {inp : ServiceInput}
    {r : Service} {st2 : Store}
    (h : insertService st now inp = (.ok r, st2)) :
    ∃ nm, inp.name = some nm ∧
      (∀ x ∈ st.services, x.name ≠ nm) ∧
      r.name = nm ∧ r.id = st.nextServiceId ∧
      r.created_at = now ∧ r.updated_at = now ∧
      st2 = { st with services := st.services ++ [r]
                      nextServiceId := st.nextServiceId + 1 } := by
  unfold insertService at h
  cases hn : inp.name with
  | none => rw [hn] at h; simp at h
  | some nm =>
    rw [hn] at h
    by_cases hdup : st.services.any (fun x => x.name == nm)
    · simp [hdup] at h
    · simp only [hdup, if_false, Bool.false_eq_true, if_neg] at h
      rw [Prod.mk.injEq] at h
      obtain ⟨h1, h2⟩ := h
      rw [Except.ok.injEq] at h1
      refine ⟨nm, rfl, ?_, ?_, ?_, ?_, ?_, ?_⟩
      · intro x hx
        simp only [List.any_eq_true, beq_iff_eq, not_exists] at hdup
        push_neg at hdup
        exact hdup x hx
      · rw [← h1]
      · rw [← h1]
      · rw [← h1]
      · rw [← h1]
      · rw [← h2, ← h1]

end Ledger

namespace Ledger

theorem insertRevenue_ok {st : Store} {now : Nat} {inp : RevenueInput}
    {r : Revenue} {st2 : Store}
    (h : insertRevenue st now inp = (.ok r, st2)) :
    ∃ sid amt d, inp.service_id = some sid ∧ inp.amount = some amt ∧
      inp.date = some d ∧
      serviceExists st sid = true ∧ createdByOk st inp.created_by = true ∧
      r.service_id = sid ∧ r.amount = amt ∧ r.date = d ∧
      r.id = st.nextRevenueId ∧ r.created_at = now ∧ r.updated_at = now ∧
      st2 = { st with revenues := st.revenues ++ [r]
                      nextRevenueId := st.nextRevenueId + 1 } := by
  unfold insertRevenue at h
  cases h1 : inp.service_id with
  | none => rw [h1] at h; simp at h
  | some sid =>
    rw [h1] at h
    cases h2 : inp.amount with
    | none => rw [h2] at h; simp at h
    | some amt =>
      rw [h2] at h
      cases h3 : inp.date with
      | none => rw [h3] at h; simp at h
      | some d =>
        rw [h3] at h
        by_cases h4 : serviceExists st sid
        · by_cases h5 : createdByOk st inp.created_by
          · simp only [h4, h5, Bool.not_true, Bool.false_eq_true, if_false] at h
            rw [Prod.mk.injEq] at h
            obtain ⟨hr, hst⟩ := h
            rw [Except.ok.injEq] at hr
            subst hr
            subst hst
            exact ⟨sid, amt, d, rfl, rfl, rfl, h4, h5, rfl, rfl, rfl, rfl, rfl, rfl, rfl⟩
          · simp [h4, h5] at h
        · simp [h4] at h

end Ledger

namespace Ledger

theorem insertExpense_ok {st : Store} {now : Nat} {inp : ExpenseInput}
    {r : Expense} {st2 : Store}
    (h : insertExpense st now inp = (.ok r, st2)) :
    ∃ amt d cat, inp.amount = some amt ∧ inp.date = some d ∧
      inp.category = some cat ∧
      serviceIdOk st inp.service_id = true ∧
      createdByOk st inp.created_by = true ∧
      r.service_id = inp.service_id ∧ r.amount = amt ∧ r.date = d ∧
      r.category = cat ∧ r.description = inp.description ∧
      r.vendor = inp.vendor ∧
      r.id = st.nextExpenseId ∧ r.created_at = now ∧ r.updated_at = now ∧
      st2 = { st with expenses := st.expenses ++ [r]
                      nextExpenseId := st.nextExpenseId + 1 } := by
  unfold insertExpense at h
  cases h1 : inp.amount with
  | none => rw [h1] at h; simp at h
  | some amt =>
    rw [h1] at h
    cases h2 : inp.date with
    | none => rw [h2] at h; simp at h
    | some d =>
      rw [h2] at h
      cases h3 : inp.category with
      | none => rw [h3] at h; simp at h
      | some cat =>
        rw [h3] at h
        by_cases h4 : serviceIdOk st inp.service_id
        · by_cases h5 : createdByOk st inp.created_by
          · simp only [h4, h5, Bool.not_true, Bool.false_eq_true, if_false] at h
            rw [Prod.mk.injEq] at h
            obtain ⟨hr, hst⟩ := h
            rw [Except.ok.injEq] at hr
            subst hr
            subst hst
            exact ⟨amt, d, cat, rfl, rfl, rfl, h4, h5, rfl, rfl, rfl, rfl,
              rfl, rfl, rfl, rfl, rfl, rfl⟩
          · simp [h4, h5] at h
        · simp [h4] at h

theorem updateService_ok {st : Store} {now sid : Nat} {d : ServiceData}
    {r : Service} {st2 : Store}
    (h : updateService st now sid d = (.ok r, st2)) :
    ∃ x0, st.services.find? (fun x => x.id == sid) = some x0 ∧
      (∀ x ∈ st.services, x.id ≠ sid → x.name ≠ d.name) ∧
      r = serviceSet now d x0 ∧
      st2 = { st with services :=
        st.services.map (fun x => if x.id == sid then serviceSet now d x else x) } := by
  unfold updateService at h
  cases hf : st.services.find? (fun x => x.id == sid) with
  | none => rw [hf] at h; simp at h
  | some x0 =>
    rw [hf] at h
    by_cases hdup : st.services.any (fun x => x.id != sid && x.name == d.name)
    · simp [hdup] at h
    · simp only [hdup, Bool.false_eq_true, if_false] at h
      rw [Prod.mk.injEq] at h
      obtain ⟨hr, hst⟩ := h
      rw [Except.ok.injEq] at hr
      refine ⟨x0, rfl, ?_, hr.symm, hst.symm⟩
      intro x hx hid
      simp only [List.any_eq_true, Bool.and_eq_true, bne_iff_ne, beq_iff_eq,
        not_exists] at hdup
      push_neg at hdup
      exact hdup x hx hid

theorem updateRevenue_ok {st : Store} {now rid : Nat} {d : RevenueData}
    {r : Revenue} {st2 : Store}
    (h : updateRevenue st now rid d = (.ok r, st2)) :
    ∃ x0, st.revenues.find? (fun x => x.id == rid) = some x0 ∧
      serviceExists st d.service_id = true ∧
      createdByOk st d.created_by = true ∧
      r = revenueSet now d x0 ∧
      st2 = { st with revenues :=
        st.revenues.map (fun x => if x.id == rid then revenueSet now d x else x) } := by
  unfold updateRevenue at h
  cases hf : st.revenues.find? (fun x => x.id == rid) with
  | none => rw [hf] at h; simp at h
  | some x0 =>
    rw [hf] at h
    by_cases h4 : serviceExists st d.service_id
    · by_cases h5 : createdByOk st d.created_by
      · simp only [h4, h5, Bool.not_true, Bool.false_eq_true, if_false] at h
        rw [Prod.mk.injEq] at h
        obtain ⟨hr, hst⟩ := h
        rw [Except.ok.injEq] at hr
        exact ⟨x0, rfl, h4, h5, hr.symm, hst.symm⟩
      · simp [h4, h5] at h
    · simp [h4] at h

theorem updateExpense_ok {st : Store} {now eid : Nat} {d : ExpenseData}
    {r : Expense} {st2 : Store}
    (h : updateExpense st now eid d = (.ok r, st2)) :
    ∃ x0, st.expenses.find? (fun x => x.id == eid) = some x0 ∧
      serviceIdOk st d.service_id = true ∧
      createdByOk st d.created_by = true ∧
      r = expenseSet now d x0 ∧
      st2 = { st with expenses :=
        st.expenses.map (fun x => if x.id == eid then expenseSet now d x else x) } := by
  unfold updateExpense at h
  cases hf : st.expenses.find? (fun x => x.id == eid) with
  | none => rw [hf] at h; simp at h
  | some x0 =>
    rw [hf] at h
    by_cases h4 : serviceIdOk st d.service_id
    · by_cases h5 : createdByOk st d.created_by
      · simp only [h4, h5, Bool.not_true, Bool.false_eq_true, if_false] at h
        rw [Prod.mk.injEq] at h
        obtain ⟨hr, hst⟩ := h
        rw [Except.ok.injEq] at hr
        exact ⟨x0, rfl, h4, h5, hr.symm, hst.symm⟩
      · simp [h4, h5] at h
    · simp [h4] at h

end Ledger

namespace Ledger

/-- Well-formedness of a store state: primary keys of `services` are
distinct and below the autoincrement counter, `Service.name` is unique,
and every foreign key into `services` resolves. -/
def StoreWF (st : Store) : Prop :=
  st.services.Pairwise (fun a b => a.id ≠ b.id) ∧
  st.services.Pairwise (fun a b => a.name ≠ b.name) ∧
  (∀ r ∈ st.revenues, serviceExists st r.service_id = true) ∧
  (∀ e ∈ st.expenses, serviceIdOk st e.service_id = true) ∧
  (∀ a ∈ st.services, a.id < st.nextServiceId)

theorem serviceSet_id (now : Nat) (d : ServiceData) (x : Service) :
    (serviceSet now d x).id = x.id := rfl

theorem any_id_map_update {l : List Service} {sid0 sid now : Nat}
    {d : ServiceData} :
    (l.map (fun x => if x.id == sid0 then serviceSet now d x else x)).any
        (fun x => x.id == sid) =
      l.any (fun x => x.id == sid) := by
  induction l with
  | nil => rfl
  | cons a l ih =>
    simp only [List.map_cons, List.any_cons, ih]
    congr 1
    by_cases h : a.id == sid0 <;> simp [h, serviceSet_id]

theorem pairwise_ids_map_update {l : List Service} {sid now : Nat}
    {d : ServiceData}
    (hid : l.Pairwise (fun a b => a.id ≠ b.id)) :
    (l.map (fun x => if x.id == sid then serviceSet now d x else x)).Pairwise
      (fun a b => a.id ≠ b.id) := by
  rw [List.pairwise_map]
  refine hid.imp ?_
  intro a b hab
  by_cases h1 : a.id == sid <;> by_cases h2 : b.id == sid <;>
    simp [h1, h2, serviceSet_id, hab]

theorem pairwise_names_map_update {l : List Service} {sid now : Nat}
    {d : ServiceData}
    (hid : l.Pairwise (fun a b => a.id ≠ b.id))
    (hname : l.Pairwise (fun a b => a.name ≠ b.name))
    (hfresh : ∀ x ∈ l, x.id ≠ sid → x.name ≠ d.name) :
    (l.map (fun x => if x.id == sid then serviceSet now d x else x)).Pairwise
      (fun a b => a.name ≠ b.name) := by
  rw [List.pairwise_map]
  refine (hid.and hname).imp_of_mem ?_
  intro a b ha hb hab
  obtain ⟨hiddist, hnamedist⟩ := hab
  by_cases h1 : a.id == sid <;> by_cases h2 : b.id == sid
  · exact absurd (by rw [beq_iff_eq] at h1 h2; rw [h1, h2]) hiddist
  · have hb2 : b.name ≠ d.name := hfresh b hb (by simpa using h2)
    simp [h1, h2, serviceSet]
    exact fun hc => hb2 hc.symm
  · have ha2 : a.name ≠ d.name := hfresh a ha (by simpa using h1)
    simp [h1, h2, serviceSet]
    exact ha2
  · simp [h1, h2]
    exact hnamedist

end Ledger

namespace Ledger

theorem wf_step {s s2 : Store} (hwf : StoreWF s) (hs : Step s s2) :
    StoreWF s2 := by
  obtain ⟨hid, hname, hrev, hexp, hbound⟩ := hwf
  cases hs with
  | addUser uid =>
    exact ⟨hid, hname, hrev, hexp, hbound⟩
  | insertServiceOk now inp r st2 h =>
    obtain ⟨nm, hn, hfresh, hrname, hrid, _, _, hst⟩ := insertService_ok h
    subst hst
    refine ⟨?_, ?_, ?_, ?_, ?_⟩
    · rw [List.pairwise_append]
      refine ⟨hid, List.pairwise_singleton _ _, ?_⟩
      intro a ha b hb
      simp only [List.mem_singleton] at hb
      subst hb
      rw [hrid]
      exact Nat.ne_of_lt (hbound a ha)
    · rw [List.pairwise_append]
      refine ⟨hname, List.pairwise_singleton _ _, ?_⟩
      intro a ha b hb
      simp only [List.mem_singleton] at hb
      subst hb
      rw [hrname]
      exact hfresh a ha
    · intro x hx
      have := hrev x hx
      simp only [serviceExists, List.any_append] at this ⊢
      simp [this]
    · intro x hx
      have := hexp x hx
      cases hsi : x.service_id with
      | none => simp [serviceIdOk]
      | some sid =>
        rw [hsi] at this
        simp only [serviceIdOk, serviceExists, List.any_append] at this ⊢
        simp [this]
    · intro a ha
      rcases List.mem_append.mp ha with h1 | h1
      · exact Nat.lt_succ_of_lt (hbound a h1)
      · simp only [List.mem_singleton] at h1
        subst h1
        rw [hrid]
        exact Nat.lt_succ_self _
  | insertRevenueOk now inp r st2 h =>
    obtain ⟨sid, amt, d, _, _, _, hex, _, hrsid, _, _, _, _, _, hst⟩ :=
      insertRevenue_ok h
    subst hst
    refine ⟨hid, hname, ?_, hexp, hbound⟩
    intro x hx
    rcases List.mem_append.mp hx with h1 | h1
    · exact hrev x h1
    · simp only [List.mem_singleton] at h1
      subst h1
      rw [hrsid]
      exact hex
  | insertExpenseOk now inp r st2 h =>
    obtain ⟨amt, d, cat, _, _, _, hok, _, hrsid, _, _, _, _, _, _, _, _, hst⟩ :=
      insertExpense_ok h
    subst hst
    refine ⟨hid, hname, hrev, ?_, hbound⟩
    intro x hx
    rcases List.mem_append.mp hx with h1 | h1
    · exact hexp x h1
    · simp only [List.mem_singleton] at h1
      subst h1
      rw [hrsid]
      exact hok
  | updateServiceOk now sid d r st2 h =>
    obtain ⟨x0, hf, hfresh, hr, hst⟩ := updateService_ok h
    subst hst
    refine ⟨pairwise_ids_map_update hid,
            pairwise_names_map_update hid hname hfresh, ?_, ?_, ?_⟩
    · intro x hx
      have := hrev x hx
      simp only [serviceExists] at this ⊢
      rw [any_id_map_update]
      exact this
    · intro x hx
      have := hexp x hx
      cases hsi : x.service_id with
      | none => simp [serviceIdOk]
      | some sid2 =>
        rw [hsi] at this
        simp only [serviceIdOk, serviceExists] at this ⊢
        rw [any_id_map_update]
        exact this
    · intro a ha
      obtain ⟨b, hb, hba⟩ := List.mem_map.mp ha
      have hlt := hbound b hb
      subst hba
      by_cases hbid : b.id == sid <;> simp [hbid, serviceSet_id, hlt]
  | updateRevenueOk now rid d r st2 h =>
    obtain ⟨x0, hf, hex, hcb, hr, hst⟩ := updateRevenue_ok h
    subst hst
    refine ⟨hid, hname, ?_, hexp, hbound⟩
    intro x hx
    obtain ⟨b, hb, hba⟩ := List.mem_map.mp hx
    subst hba
    by_cases hbid : b.id == rid
    · simpa [hbid, revenueSet] using hex
    · simpa [hbid] using hrev b hb
  | updateExpenseOk now eid d r st2 h =>
    obtain ⟨x0, hf, hok, hcb, hr, hst⟩ := updateExpense_ok h
    subst hst
    refine ⟨hid, hname, hrev, ?_, hbound⟩
    intro x hx
    obtain ⟨b, hb, hba⟩ := List.mem_map.mp hx
    subst hba
    by_cases hbid : b.id == eid
    · simpa [hbid, expenseSet] using hok
    · simpa [hbid] using hexp b hb

theorem reachable_wf {s : Store} (h : Reachable s) : StoreWF s := by
  induction h with
  | init =>
    refine ⟨?_, ?_, ?_, ?_, ?_⟩ <;> simp [emptyStore]
  | step hr hs ih => exact wf_step ih hs

end Ledger

namespace Config


theorem splitChar_ne_nil (sep : Char) (l : List Char) : splitChar sep l ≠ [] := by
  cases l with
  | nil => simp [splitChar]
  | cons c rest =>
    by_cases h : c == sep
    · simp [splitChar, h]
    · simp only [splitChar, h, Bool.false_eq_true, if_false]
      cases hs : splitChar sep rest <;> simp

theorem splitChar_no_sep {sep : Char} {l : List Char} (h : sep ∉ l) :
    splitChar sep l = [l] := by
  induction l with
  | nil => rfl
  | cons c rest ih =>
    simp only [List.mem_cons, not_or] at h
    obtain ⟨h1, h2⟩ := h
    have hc : (c == sep) = false := by
      simp [beq_iff_eq]
      exact fun hc2 => h1 hc2.symm
    simp [splitChar, hc, ih h2]

theorem splitChar_append_sep {sep : Char} {l1 : List Char} (l2 : List Char)
    (h : sep ∉ l1) :
    splitChar sep (l1 ++ sep :: l2) = l1 :: splitChar sep l2 := by
  induction l1 with
  | nil => simp [splitChar]
  | cons c rest ih =>
    simp only [List.mem_cons, not_or] at h
    obtain ⟨h1, h2⟩ := h
    have hc : (c == sep) = false := by
      simp [beq_iff_eq]
      exact fun hc2 => h1 hc2.symm
    simp only [List.cons_append, splitChar, hc, Bool.false_eq_true, if_false,
      List.append_eq, ih h2]

theorem splitChar_length (sep : Char) (l : List Char) :
    (splitChar sep l).length = l.count sep + 1 := by
  induction l with
  | nil => rfl
  | cons c rest ih =>
    by_cases h : c == sep
    · rw [beq_iff_eq] at h
      subst h
      simp [splitChar, List.count_cons, ih]
    · cases hs : splitChar sep rest with
      | nil => exact absurd hs (splitChar_ne_nil sep rest)
      | cons hd tl =>
        rw [hs] at ih
        simp only [splitChar, h, Bool.false_eq_true, if_false, hs]
        simp only [List.length_cons] at ih ⊢
        rw [List.count_cons]
        have hne : ¬ c = sep := by simpa [beq_iff_eq] using h
        simp [hne, ← ih]

theorem splitChar_snoc_sep (sep : Char) (l : List Char) :
    splitChar sep (l ++ [sep]) = splitChar sep l ++ [[]] := by
  induction l with
  | nil => simp [splitChar]
  | cons c rest ih =>
    by_cases h : c == sep
    · simp [splitChar, h, ih]
    · simp only [List.cons_append, splitChar, h, Bool.false_eq_true, if_false,
        List.append_eq, ih]
      cases hs : splitChar sep rest with
      | nil => exact absurd hs (splitChar_ne_nil sep rest)
      | cons hd tl => simp [hs]

/-- Comma-joined segments: the inverse image used to state that
`cors_origins` splits on commas. -/
def joinComma : List String → String
  | [] => ""
  | [a] => a
  | a :: rest => a ++ "," ++ joinComma rest

theorem splitChar_joinComma {segs : List String} (hne : segs ≠ [])
    (h : ∀ seg ∈ segs, ',' ∉ seg.data) :
    splitChar ',' (joinComma segs).data = segs.map String.data := by
  induction segs with
  | nil => exact absurd rfl hne
  | cons a rest ih =>
    cases rest with
    | nil =>
      simp only [joinComma, List.map_cons, List.map_nil]
      exact splitChar_no_sep (h a (List.mem_cons_self a []))
    | cons b rest2 =>
      have hdata : (joinComma (a :: b :: rest2)).data
          = a.data ++ ',' :: (joinComma (b :: rest2)).data := by
        show ((a ++ ",") ++ joinComma (b :: rest2)).data = _
        rw [String.data_append, String.data_append, List.append_assoc]
        rfl
      rw [hdata, splitChar_append_sep _ (h a (List.mem_cons_self a _))]
      rw [ih (by simp) (fun seg hs => h seg (List.mem_cons_of_mem a hs))]
      rfl

end Config

namespace Config

/-- C6: For a `Settings` value whose `allowed_origins` is
`"http://localhost:8080,http://localhost:5173"`, `cors_origins` is exactly
`["http://localhost:8080", "http://localhost:5173"]`; in general, on any
comma-join of comma-free segments it returns the segments in order, each
stripped of surrounding whitespace. -/
theorem cors_origins_parsing :
    (∀ s : Settings,
      s.allowed_origins = "http://localhost:8080,http://localhost:5173" →
      s.cors_origins = ["http://localhost:8080", "http://localhost:5173"]) ∧
    (∀ segs : List String, segs ≠ [] → (∀ seg ∈ segs, ',' ∉ seg.data) →
      ∀ s : Settings, s.allowed_origins = joinComma segs →
        s.cors_origins = segs.map pyStrip) := by
  constructor
  · intro s hs
    simp only [Settings.cors_origins, hs]
    rfl
  · intro segs hne hcomma s hs
    simp only [Settings.cors_origins, hs]
    rw [splitChar_joinComma hne hcomma, List.map_map]
    rfl

theorem cors_origins_parsing_witness :
    Settings.cors_origins
        { allowed_origins := "http://localhost:8080,http://localhost:5173" }
      = ["http://localhost:8080", "http://localhost:5173"] ∧
    Settings.cors_origins { allowed_origins := " a ,b" } = ["a", "b"] :=
  ⟨cors_origins_parsing.1 { allowed_origins := _ } rfl,
   ((cors_origins_parsing.2 [" a ", "b"] (by decide) (by decide)
      { allowed_origins := " a ,b" } (by rfl)).trans (by decide))⟩

/-- C7: `get_settings` is backed by a process-wide cache: after any first
call, every repeated call — under any (even changed) environment — returns
the same `Settings` instance and leaves the cache untouched, and the first
call from the initial cache parses the environment exactly once. -/
theorem get_settings_cached :
    ∀ (e e2 : Env) (st : CacheState),
      get_settings e2 (get_settings e st).2
          = ((get_settings e st).1, (get_settings e st).2) ∧
      (get_settings e initialCache).1 = mkSettings e := by
  intro e e2 st
  constructor
  · cases hc : st.cached with
    | some s => simp [get_settings, hc]
    | none => simp [get_settings, hc]
  · rfl

/-- C10: `cors_origins` yields one element per comma-separated segment and
keeps empty segments: the empty string gives `[""]`, the element count is
always the comma count plus one, and trailing or doubled commas contribute
empty-string elements at the corresponding positions. -/
theorem cors_origins_empty_segments :
    (∀ s : Settings, s.allowed_origins = "" → s.cors_origins = [""]) ∧
    (∀ s : Settings,
      s.cors_origins.length = s.allowed_origins.data.count ',' + 1) ∧
    (∀ s s2 : Settings, s2.allowed_origins = s.allowed_origins ++ "," →
      s2.cors_origins = s.cors_origins ++ [""]) ∧
    (∀ s s2 : Settings, s2.allowed_origins = s.allowed_origins ++ ",," →
      s2.cors_origins = s.cors_origins ++ ["", ""]) := by
  refine ⟨?_, ?_, ?_, ?_⟩
  · intro s hs
    simp only [Settings.cors_origins, hs]
    rfl
  · intro s
    simp [Settings.cors_origins, splitChar_length]
  · intro s s2 hs
    simp only [Settings.cors_origins, hs, String.data_append]
    rw [splitChar_snoc_sep, List.map_append]
    rfl
  · intro s s2 hs
    have hdata : s2.allowed_origins.data
        = (s.allowed_origins.data ++ [',']) ++ [','] := by
      rw [hs, String.data_append]
      simp
    simp only [Settings.cors_origins, hdata]
    rw [splitChar_snoc_sep, splitChar_snoc_sep, List.map_append,
      List.map_append, List.append_assoc]
    rfl

theorem cors_origins_empty_segments_witness :
    Settings.cors_origins { allowed_origins := "" } = [""] ∧
    (Settings.cors_origins { allowed_origins := "a,b" }).length = 2 ∧
    Settings.cors_origins { allowed_origins := "a," }
      = Settings.cors_origins { allowed_origins := "a" } ++ [""] ∧
    Settings.cors_origins { allowed_origins := "a,,b" ++ ",," }
      = Settings.cors_origins { allowed_origins := "a,,b" } ++ ["", ""] :=
  ⟨cors_origins_empty_segments.1 { allowed_origins := "" } rfl,
   by
     have h := cors_origins_empty_segments.2.1 { allowed_origins := "a,b" }
     simpa using h,
   cors_origins_empty_segments.2.2.1 { allowed_origins := "a" }
     { allowed_origins := "a," } (by decide),
   cors_origins_empty_segments.2.2.2 { allowed_origins := "a,,b" }
     { allowed_origins := "a,,b" ++ ",," } rfl⟩

end Config

namespace Ledger

/-- A concrete persisted service row, used to instantiate the invariant
theorems on a nonempty reachable store. -/
def svcA : Service :=
  { id := 1, name := "Cafe", description := none, icon := "building"
    color := "blue", is_active := true, daily_target := 0
    monthly_target := 0, yearly_target := 0, created_at := 0
    updated_at := 0 }

/-- The store obtained from a fresh database by inserting `svcA`. -/
def svcStoreA : Store :=
  { services := [svcA], revenues := [], expenses := [], userIds := []
    nextServiceId := 2, nextRevenueId := 1, nextExpenseId := 1 }

theorem reachable_svcStoreA : Reachable svcStoreA :=
  Reachable.step Reachable.init
    (Step.insertServiceOk emptyStore 0
      ⟨some "Cafe", none, none, none, none, none, none, none⟩
      svcA svcStoreA rfl)

/-- C1: In every reachable store state, every Revenue row's `service_id`
resolves to an existing Service; inserting a Revenue whose `service_id`
is null, or names no existing Service, fails and leaves the store
unchanged. -/
theorem revenue_service_fk_invariant (st : Store) (h : Reachable st) :
    (∀ r ∈ st.revenues, serviceExists st r.service_id = true) ∧
    (∀ (now : Nat) (inp : RevenueInput), inp.service_id = none →
      ∃ e, insertRevenue st now inp = (.error e, st)) ∧
    (∀ (now : Nat) (inp : RevenueInput) (sid : Nat),
      inp.service_id = some sid → serviceExists st sid = false →
      ∃ e, insertRevenue st now inp = (.error e, st)) := by
  refine ⟨(reachable_wf h).2.2.1, ?_, ?_⟩
  · intro now inp hsi
    exact ⟨.missingRequired "service_id", by simp only [insertRevenue, hsi]⟩
  · intro now inp sid hsi hex
    cases ha : inp.amount with
    | none =>
      exact ⟨.missingRequired "amount", by simp only [insertRevenue, hsi, ha]⟩
    | some amt =>
      cases hd : inp.date with
      | none =>
        exact ⟨.missingRequired "date", by simp only [insertRevenue, hsi, ha, hd]⟩
      | some d =>
        exact ⟨.fkViolation "service_id",
          by simp only [insertRevenue, hsi, ha, hd, hex, Bool.not_false, if_true]⟩

theorem revenue_service_fk_invariant_witness :
    (∀ r ∈ svcStoreA.revenues, serviceExists svcStoreA r.service_id = true) ∧
    (∃ e, insertRevenue svcStoreA 1
        ⟨none, some 5, some 1, none, none, none, none⟩
      = (.error e, svcStoreA)) ∧
    (∃ e, insertRevenue svcStoreA 1
        ⟨some 7, some 5, some 1, none, none, none, none⟩
      = (.error e, svcStoreA)) :=
  ⟨(revenue_service_fk_invariant svcStoreA reachable_svcStoreA).1,
   (revenue_service_fk_invariant svcStoreA reachable_svcStoreA).2.1 1 _ rfl,
   (revenue_service_fk_invariant svcStoreA reachable_svcStoreA).2.2 1 _ 7 rfl
     (by decide)⟩

/-- C2: In every reachable store state, an Expense row's `service_id` may
be null, and whenever it is non-null it resolves to an existing Service;
inserting an Expense with a null `service_id` (and the other required
fields present) succeeds, while the same null `service_id` makes a Revenue
insert fail. -/
theorem expense_service_fk_optional (st : Store) (h : Reachable st) :
    (∀ x ∈ st.expenses, ∀ sid, x.service_id = some sid →
      serviceExists st sid = true) ∧
    (∀ (now : Nat) (amt : Int) (d : Nat) (cat : String)
        (desc vend : Option String) (isrec : Option Bool),
      ∃ r st2, insertExpense st now
          ⟨none, some amt, some d, some cat, desc, vend, isrec, none⟩
        = (.ok r, st2) ∧ r.service_id = none) ∧
    (∀ (now : Nat) (inp : RevenueInput), inp.service_id = none →
      ∃ e, insertRevenue st now inp = (.error e, st)) := by
  refine ⟨?_, ?_, ?_⟩
  · intro x hx sid hsid
    have := (reachable_wf h).2.2.2.1 x hx
    rw [hsid] at this
    exact this
  · intro now amt d cat desc vend isrec
    exact ⟨_, _, rfl, rfl⟩
  · intro now inp hsi
    exact ⟨.missingRequired "service_id", by simp only [insertRevenue, hsi]⟩

theorem expense_service_fk_optional_witness :
    ∃ r st2, insertExpense svcStoreA 1
        ⟨none, some 5, some 1, some "fixed", none, none, none, none⟩
      = (.ok r, st2) ∧ r.service_id = none :=
  (expense_service_fk_optional svcStoreA reachable_svcStoreA).2.1 1 5 1
    "fixed" none none none

/-- C4: Inserting a Service whose name duplicates a stored Service's name
fails with a uniqueness violation and leaves the store unchanged; a fresh
name succeeds; consequently Service names are pairwise distinct in every
reachable store state. -/
theorem service_name_uniqueness (st : Store) (h : Reachable st) :
    st.services.Pairwise (fun a b => a.name ≠ b.name) ∧
    (∀ (now : Nat) (inp : ServiceInput) (nm : String), inp.name = some nm →
      (∃ x ∈ st.services, x.name = nm) →
      insertService st now inp = (.error (.uniqueViolation "name"), st)) ∧
    (∀ (now : Nat) (inp : ServiceInput) (nm : String), inp.name = some nm →
      (∀ x ∈ st.services, x.name ≠ nm) →
      (insertService st now inp).1.isOk = true) := by
  refine ⟨(reachable_wf h).2.1, ?_, ?_⟩
  · intro now inp nm hn hdup
    have hany : st.services.any (fun x => x.name == nm) = true := by
      rw [List.any_eq_true]
      obtain ⟨x, hx, hxx⟩ := hdup
      exact ⟨x, hx, by simp [hxx]⟩
    simp only [insertService, hn, hany, if_true]
  · intro now inp nm hn hfresh
    have hany : st.services.any (fun x => x.name == nm) = false := by
      rw [List.any_eq_false]
      intro x hx
      simp [hfresh x hx]
    simp only [insertService, hn, hany, Bool.false_eq_true, if_false,
      Except.isOk, Except.toBool]

theorem service_name_uniqueness_witness :
    insertService svcStoreA 1
        ⟨some "Cafe", none, none, none, none, none, none, none⟩
      = (.error (.uniqueViolation "name"), svcStoreA) ∧
    (insertService svcStoreA 1
        ⟨some "Bar", none, none, none, none, none, none, none⟩).1.isOk
      = true :=
  ⟨(service_name_uniqueness svcStoreA reachable_svcStoreA).2.1 1 _ "Cafe"
      rfl (by decide),
   (service_name_uniqueness svcStoreA reachable_svcStoreA).2.2 1 _ "Bar"
      rfl (by decide)⟩

end Ledger

namespace Ledger

theorem created_map_update_service (l : List Service) (sid now : Nat)
    (d : ServiceData) :
    ((l.map (fun x => if x.id == sid then serviceSet now d x else x)).map
        (fun x => x.created_at))
      = l.map (fun x => x.created_at) := by
  induction l with
  | nil => rfl
  | cons a l ih =>
    simp only [List.map_cons, ih]
    congr 1
    by_cases h : a.id == sid <;> simp [h, serviceSet]

theorem created_map_update_revenue (l : List Revenue) (rid now : Nat)
    (d : RevenueData) :
    ((l.map (fun x => if x.id == rid then revenueSet now d x else x)).map
        (fun x => x.created_at))
      = l.map (fun x => x.created_at) := by
  induction l with
  | nil => rfl
  | cons a l ih =>
    simp only [List.map_cons, ih]
    congr 1
    by_cases h : a.id == rid <;> simp [h, revenueSet]

theorem created_map_update_expense (l : List Expense) (eid now : Nat)
    (d : ExpenseData) :
    ((l.map (fun x => if x.id == eid then expenseSet now d x else x)).map
        (fun x => x.created_at))
      = l.map (fun x => x.created_at) := by
  induction l with
  | nil => rfl
  | cons a l ih =>
    simp only [List.map_cons, ih]
    congr 1
    by_cases h : a.id == eid <;> simp [h, expenseSet]

/-- C3: A successful update on any of the three entities refreshes the
updated row's `updated_at` to the update time, keeps its `created_at` (and
the `created_at` of every row in the table) unchanged, and — when the
clock has not gone backwards — `updated_at` does not decrease. -/
theorem update_timestamp_discipline :
    (∀ (st : Store) (now sid : Nat) (d : ServiceData) (r : Service)
        (st2 : Store), updateService st now sid d = (.ok r, st2) →
      (∀ x0, st.services.find? (fun x => x.id == sid) = some x0 →
        r.created_at = x0.created_at ∧
        (x0.updated_at ≤ now → x0.updated_at ≤ r.updated_at)) ∧
      r.updated_at = now ∧
      st2.services.map (fun x => x.created_at)
        = st.services.map (fun x => x.created_at)) ∧
    (∀ (st : Store) (now rid : Nat) (d : RevenueData) (r : Revenue)
        (st2 : Store), updateRevenue st now rid d = (.ok r, st2) →
      (∀ x0, st.revenues.find? (fun x => x.id == rid) = some x0 →
        r.created_at = x0.created_at ∧
        (x0.updated_at ≤ now → x0.updated_at ≤ r.updated_at)) ∧
      r.updated_at = now ∧
      st2.revenues.map (fun x => x.created_at)
        = st.revenues.map (fun x => x.created_at)) ∧
    (∀ (st : Store) (now eid : Nat) (d : ExpenseData) (r : Expense)
        (st2 : Store), updateExpense st now eid d = (.ok r, st2) →
      (∀ x0, st.expenses.find? (fun x => x.id == eid) = some x0 →
        r.created_at = x0.created_at ∧
        (x0.updated_at ≤ now → x0.updated_at ≤ r.updated_at)) ∧
      r.updated_at = now ∧
      st2.expenses.map (fun x => x.created_at)
        = st.expenses.map (fun x => x.created_at)) := by
  refine ⟨?_, ?_, ?_⟩
  · intro st now sid d r st2 h
    obtain ⟨x0, hf, hfresh, hr, hst⟩ := updateService_ok h
    subst hr
    subst hst
    refine ⟨?_, rfl, created_map_update_service st.services sid now d⟩
    intro x1 hfx
    rw [hf] at hfx
    injection hfx with hx
    subst hx
    exact ⟨rfl, fun hle => hle⟩
  · intro st now rid d r st2 h
    obtain ⟨x0, hf, hex, hcb, hr, hst⟩ := updateRevenue_ok h
    subst hr
    subst hst
    refine ⟨?_, rfl, created_map_update_revenue st.revenues rid now d⟩
    intro x1 hfx
    rw [hf] at hfx
    injection hfx with hx
    subst hx
    exact ⟨rfl, fun hle => hle⟩
  · intro st now eid d r st2 h
    obtain ⟨x0, hf, hok, hcb, hr, hst⟩ := updateExpense_ok h
    subst hr
    subst hst
    refine ⟨?_, rfl, created_map_update_expense st.expenses eid now d⟩
    intro x1 hfx
    rw [hf] at hfx
    injection hfx with hx
    subst hx
    exact ⟨rfl, fun hle => hle⟩

/-- A concrete persisted revenue row for instantiating the update
theorems. -/
def revA : Revenue :=
  { id := 1, service_id := 1, amount := 5, date := 1, description := none
    payment_method := "cash", reference := none, created_by := none
    created_at := 0, updated_at := 0 }

/-- A store holding `svcA` and `revA`. -/
def revStoreA : Store :=
  { svcStoreA with revenues := [revA], nextRevenueId := 2 }

/-- New column values for updating `revA`. -/
def dR : RevenueData :=
  { service_id := 1, amount := 7, date := 2, description := none
    payment_method := "bank", reference := none, created_by := none }

theorem update_timestamp_discipline_witness :
    (revenueSet 5 dR revA).created_at = revA.created_at ∧
    (revenueSet 5 dR revA).updated_at = 5 ∧
    revA.updated_at ≤ (revenueSet 5 dR revA).updated_at :=
  have h := update_timestamp_discipline.2.1 revStoreA 5 1 dR
    (revenueSet 5 dR revA) _ rfl
  ⟨(h.1 revA rfl).1, h.2.1, (h.1 revA rfl).2 (by decide)⟩

end Ledger

namespace Ledger

theorem createdByOk_eq_false {st : Store} {o : Option Nat} :
    createdByOk st o = false ↔
      ∃ uid, o = some uid ∧ userExists st uid = false := by
  cases o <;> simp [createdByOk]

theorem serviceIdOk_eq_false {st : Store} {o : Option Nat} :
    serviceIdOk st o = false ↔
      ∃ sid, o = some sid ∧ serviceExists st sid = false := by
  cases o <;> simp [serviceIdOk]

/-- The spec's stated failure condition for a Service insert: a missing
required field or a duplicated unique `Service.name`. -/
def serviceInsertViolation (st : Store) (inp : ServiceInput) : Prop :=
  inp.name = none ∨
  ∃ nm, inp.name = some nm ∧ ∃ x ∈ st.services, x.name = nm

/-- The spec's stated failure condition for a Revenue insert: a missing
required field or a foreign key naming a nonexistent Service or User. -/
def revenueInsertViolation (st : Store) (inp : RevenueInput) : Prop :=
  inp.service_id = none ∨ inp.amount = none ∨ inp.date = none ∨
  (∃ sid, inp.service_id = some sid ∧ serviceExists st sid = false) ∨
  (∃ uid, inp.created_by = some uid ∧ userExists st uid = false)

/-- The spec's stated failure condition for an Expense insert. -/
def expenseInsertViolation (st : Store) (inp : ExpenseInput) : Prop :=
  inp.amount = none ∨ inp.date = none ∨ inp.category = none ∨
  (∃ sid, inp.service_id = some sid ∧ serviceExists st sid = false) ∨
  (∃ uid, inp.created_by = some uid ∧ userExists st uid = false)

theorem serviceViolation_of_error {st : Store} {now : Nat}
    {inp : ServiceInput} {e : DBError}
    (he : (insertService st now inp).1 = .error e) :
    serviceInsertViolation st inp := by
  cases hn : inp.name with
  | none => exact Or.inl hn
  | some nm =>
    by_cases hdup : st.services.any (fun x => x.name == nm)
    · refine Or.inr ⟨nm, hn, ?_⟩
      simpa [List.any_eq_true, beq_iff_eq] using hdup
    · exfalso
      simp [insertService, hn, hdup] at he

theorem revenueViolation_of_error {st : Store} {now : Nat}
    {inp : RevenueInput} {e : DBError}
    (he : (insertRevenue st now inp).1 = .error e) :
    revenueInsertViolation st inp := by
  cases h1 : inp.service_id with
  | none => exact Or.inl h1
  | some sid =>
    cases h2 : inp.amount with
    | none => exact Or.inr (Or.inl h2)
    | some amt =>
      cases h3 : inp.date with
      | none => exact Or.inr (Or.inr (Or.inl h3))
      | some d =>
        by_cases h4 : serviceExists st sid
        · by_cases h5 : createdByOk st inp.created_by
          · exfalso
            simp [insertRevenue, h1, h2, h3, h4, h5] at he
          · refine Or.inr (Or.inr (Or.inr (Or.inr ?_)))
            exact createdByOk_eq_false.mp (Bool.not_eq_true _ ▸ by
              simpa using h5)
        · refine Or.inr (Or.inr (Or.inr (Or.inl ⟨sid, h1, ?_⟩)))
          simpa using h4

theorem expenseViolation_of_error {st : Store} {now : Nat}
    {inp : ExpenseInput} {e : DBError}
    (he : (insertExpense st now inp).1 = .error e) :
    expenseInsertViolation st inp := by
  cases h1 : inp.amount with
  | none => exact Or.inl h1
  | some amt =>
    cases h2 : inp.date with
    | none => exact Or.inr (Or.inl h2)
    | some d =>
      cases h3 : inp.category with
      | none => exact Or.inr (Or.inr (Or.inl h3))
      | some cat =>
        by_cases h4 : serviceIdOk st inp.service_id
        · by_cases h5 : createdByOk st inp.created_by
          · exfalso
            simp [insertExpense, h1, h2, h3, h4, h5] at he
          · refine Or.inr (Or.inr (Or.inr (Or.inr ?_)))
            exact createdByOk_eq_false.mp (by simpa using h5)
        · refine Or.inr (Or.inr (Or.inr (Or.inl ?_)))
          exact serviceIdOk_eq_false.mp (by simpa using h4)

end Ledger

namespace Ledger

theorem error_of_serviceViolation {st : Store} {now : Nat}
    {inp : ServiceInput} (hv : serviceInsertViolation st inp) :
    ∃ e, (insertService st now inp).1 = .error e := by
  cases he : (insertService st now inp).1 with
  | error e => exact ⟨e, rfl⟩
  | ok r =>
    exfalso
    have hfull : insertService st now inp
        = (.ok r, (insertService st now inp).2) := Prod.ext he rfl
    obtain ⟨nm, hn, hfresh, _, _, _, _, _⟩ := insertService_ok hfull
    rcases hv with h | ⟨nm2, hn2, x, hx, hxnm⟩
    · rw [h] at hn
      exact Option.noConfusion hn
    · rw [hn] at hn2
      injection hn2 with hn3
      exact hfresh x hx (by rw [hxnm, hn3])

theorem error_of_revenueViolation {st : Store} {now : Nat}
    {inp : RevenueInput} (hv : revenueInsertViolation st inp) :
    ∃ e, (insertRevenue st now inp).1 = .error e := by
  cases he : (insertRevenue st now inp).1 with
  | error e => exact ⟨e, rfl⟩
  | ok r =>
    exfalso
    have hfull : insertRevenue st now inp
        = (.ok r, (insertRevenue st now inp).2) := Prod.ext he rfl
    obtain ⟨sid, amt, d, h1, h2, h3, hex, hcb, _, _, _, _, _, _, _⟩ :=
      insertRevenue_ok hfull
    rcases hv with h | h | h | ⟨sid2, hs2, hex2⟩ | ⟨uid, hu, hue⟩
    · rw [h] at h1
      exact Option.noConfusion h1
    · rw [h] at h2
      exact Option.noConfusion h2
    · rw [h] at h3
      exact Option.noConfusion h3
    · rw [h1] at hs2
      injection hs2 with hh
      subst hh
      simp [hex] at hex2
    · rw [hu] at hcb
      simp [createdByOk, hue] at hcb
  
theorem error_of_expenseViolation {st : Store} {now : Nat}
    {inp : ExpenseInput} (hv : expenseInsertViolation st inp) :
    ∃ e, (insertExpense st now inp).1 = .error e := by
  cases he : (insertExpense st now inp).1 with
  | error e => exact ⟨e, rfl⟩
  | ok r =>
    exfalso
    have hfull : insertExpense st now inp
        = (.ok r, (insertExpense st now inp).2) := Prod.ext he rfl
    obtain ⟨amt, d, cat, h1, h2, h3, hok, hcb, _, _, _, _, _, _, _, _, _, _⟩ :=
      insertExpense_ok hfull
    rcases hv with h | h | h | ⟨sid2, hs2, hex2⟩ | ⟨uid, hu, hue⟩
    · rw [h] at h1
      exact Option.noConfusion h1
    · rw [h] at h2
      exact Option.noConfusion h2
    · rw [h] at h3
      exact Option.noConfusion h3
    · rw [hs2] at hok
      simp [serviceIdOk, hex2] at hok
    · rw [hu] at hcb
      simp [createdByOk, hue] at hcb

theorem insertService_error_store {st : Store} {now : Nat}
    {inp : ServiceInput} {e : DBError}
    (he : (insertService st now inp).1 = .error e) :
    (insertService st now inp).2 = st := by
  cases hn : inp.name with
  | none => simp [insertService, hn]
  | some nm =>
    by_cases hdup : st.services.any (fun x => x.name == nm)
    · simp [insertService, hn, hdup]
    · exfalso
      simp [insertService, hn, hdup] at he

theorem insertRevenue_error_store {st : Store} {now : Nat}
    {inp : RevenueInput} {e : DBError}
    (he : (insertRevenue st now inp).1 = .error e) :
    (insertRevenue st now inp).2 = st := by
  cases h1 : inp.service_id with
  | none => simp [insertRevenue, h1]
  | some sid =>
    cases h2 : inp.amount with
    | none => simp [insertRevenue, h1, h2]
    | some amt =>
      cases h3 : inp.date with
      | none => simp [insertRevenue, h1, h2, h3]
      | some d =>
        by_cases h4 : serviceExists st sid
        · by_cases h5 : createdByOk st inp.created_by
          · exfalso
            simp [insertRevenue, h1, h2, h3, h4, h5] at he
          · simp [insertRevenue, h1, h2, h3, h4, h5]
        · simp [insertRevenue, h1, h2, h3, h4]

theorem insertExpense_error_store {st : Store} {now : Nat}
    {inp : ExpenseInput} {e : DBError}
    (he : (insertExpense st now inp).1 = .error e) :
    (insertExpense st now inp).2 = st := by
  cases h1 : inp.amount with
  | none => simp [insertExpense, h1]
  | some amt =>
    cases h2 : inp.date with
    | none => simp [insertExpense, h1, h2]
    | some d =>
      cases h3 : inp.category with
      | none => simp [insertExpense, h1, h2, h3]
      | some cat =>
        by_cases h4 : serviceIdOk st inp.service_id
        · by_cases h5 : createdByOk st inp.created_by
          · exfalso
            simp [insertExpense, h1, h2, h3, h4, h5] at he
          · simp [insertExpense, h1, h2, h3, h4, h5]
        · simp [insertExpense, h1, h2, h3, h4]

end Ledger

namespace Ledger

/-- C5: For every entity, an insert fails exactly when a required field is
missing, the unique `Service.name` is duplicated, or a foreign key names a
nonexistent Service or User; when it fails, the store is returned
unchanged (the error is a pass-through, with no recovery); when it
succeeds, the persisted record carries the generated id and both
timestamps populated with the insertion time. -/
theorem insert_error_characterization (st : Store) (now : Nat) :
    (∀ inp : ServiceInput,
      ((∃ e, (insertService st now inp).1 = .error e) ↔
        serviceInsertViolation st inp) ∧
      (∀ e, (insertService st now inp).1 = .error e →
        (insertService st now inp).2 = st) ∧
      (∀ r st2, insertService st now inp = (.ok r, st2) →
        r.id = st.nextServiceId ∧ r.created_at = now ∧ r.updated_at = now)) ∧
    (∀ inp : RevenueInput,
      ((∃ e, (insertRevenue st now inp).1 = .error e) ↔
        revenueInsertViolation st inp) ∧
      (∀ e, (insertRevenue st now inp).1 = .error e →
        (insertRevenue st now inp).2 = st) ∧
      (∀ r st2, insertRevenue st now inp = (.ok r, st2) →
        r.id = st.nextRevenueId ∧ r.created_at = now ∧ r.updated_at = now)) ∧
    (∀ inp : ExpenseInput,
      ((∃ e, (insertExpense st now inp).1 = .error e) ↔
        expenseInsertViolation st inp) ∧
      (∀ e, (insertExpense st now inp).1 = .error e →
        (insertExpense st now inp).2 = st) ∧
      (∀ r st2, insertExpense st now inp = (.ok r, st2) →
        r.id = st.nextExpenseId ∧ r.created_at = now ∧ r.updated_at = now)) := by
  refine ⟨?_, ?_, ?_⟩
  · intro inp
    refine ⟨⟨fun h => ?_, error_of_serviceViolation⟩,
            fun e he => insertService_error_store he, ?_⟩
    · obtain ⟨e, he⟩ := h
      exact serviceViolation_of_error he
    · intro r st2 hok
      obtain ⟨nm, hn, hfresh, hna, hid, hc, hu, hst⟩ := insertService_ok hok
      exact ⟨hid, hc, hu⟩
  · intro inp
    refine ⟨⟨fun h => ?_, error_of_revenueViolation⟩,
            fun e he => insertRevenue_error_store he, ?_⟩
    · obtain ⟨e, he⟩ := h
      exact revenueViolation_of_error he
    · intro r st2 hok
      obtain ⟨sid, amt, d, _, _, _, _, _, _, _, _, hid, hc, hu, _⟩ :=
        insertRevenue_ok hok
      exact ⟨hid, hc, hu⟩
  · intro inp
    refine ⟨⟨fun h => ?_, error_of_expenseViolation⟩,
            fun e he => insertExpense_error_store he, ?_⟩
    · obtain ⟨e, he⟩ := h
      exact expenseViolation_of_error he
    · intro r st2 hok
      obtain ⟨amt, d, cat, _, _, _, _, _, _, _, _, _, _, _, hid, hc, hu, hst⟩ :=
        insertExpense_ok hok
      exact ⟨hid, hc, hu⟩

/-- The row persisted by inserting a null-service Expense into
`svcStoreA` at time 1. -/
def expB : Expense :=
  { id := 1, service_id := none, amount := 5, date := 1, category := "fixed"
    description := none, vendor := none, is_recurring := false
    created_by := none, created_at := 1, updated_at := 1 }

theorem insert_error_characterization_witness :
    serviceInsertViolation emptyStore
      ⟨none, none, none, none, none, none, none, none⟩ ∧
    (∃ e, (insertService emptyStore 0
      ⟨none, none, none, none, none, none, none, none⟩).1 = .error e) ∧
    ((insertRevenue svcStoreA 1
      ⟨some 2, some 5, some 1, none, none, none, none⟩).2 = svcStoreA) ∧
    (expB.id = svcStoreA.nextExpenseId ∧ expB.created_at = 1 ∧
      expB.updated_at = 1) :=
  ⟨Or.inl rfl,
   ((insert_error_characterization emptyStore 0).1
      ⟨none, none, none, none, none, none, none, none⟩).1.mpr (Or.inl rfl),
   ((insert_error_characterization svcStoreA 1).2.1
      ⟨some 2, some 5, some 1, none, none, none, none⟩).2.1
      (.fkViolation "service_id") rfl,
   ((insert_error_characterization svcStoreA 1).2.2
      ⟨none, some 5, some 1, some "fixed", none, none, none, none⟩).2.2
      expB _ rfl⟩

end Ledger

namespace Ledger

/-- C8: For Revenue and Expense, inserting without an amount fails and
leaves the store unchanged, while any integer amount — zero or negative
included — is accepted (all other constraints satisfied) and stored
unchanged in the persisted row: no sign constraint exists on `amount`. -/
theorem amount_required_sign_unconstrained (st : Store) (now : Nat) :
    (∀ inp : RevenueInput, inp.amount = none →
      ∃ e, insertRevenue st now inp = (.error e, st)) ∧
    (∀ inp : ExpenseInput, inp.amount = none →
      ∃ e, insertExpense st now inp = (.error e, st)) ∧
    (∀ (sid : Nat) (amt : Int) (d : Nat) (desc pm ref2 : Option String),
      serviceExists st sid = true →
      ∃ r st2, insertRevenue st now ⟨some sid, some amt, some d, desc, pm, ref2, none⟩
        = (.ok r, st2) ∧ r.amount = amt ∧
        st2.revenues = st.revenues ++ [r]) ∧
    (∀ (amt : Int) (d : Nat) (cat : String),
      ∃ r st2, insertExpense st now
          ⟨none, some amt, some d, some cat, none, none, none, none⟩
        = (.ok r, st2) ∧ r.amount = amt ∧
        st2.expenses = st.expenses ++ [r]) := by
  refine ⟨?_, ?_, ?_, ?_⟩
  · intro inp ha
    cases h1 : inp.service_id with
    | none =>
      exact ⟨.missingRequired "service_id", by simp only [insertRevenue, h1]⟩
    | some sid =>
      exact ⟨.missingRequired "amount", by simp only [insertRevenue, h1, ha]⟩
  · intro inp ha
    exact ⟨.missingRequired "amount", by simp only [insertExpense, ha]⟩
  · intro sid amt d desc pm ref2 hex
    simp only [insertRevenue, hex, Bool.not_true, Bool.false_eq_true,
      if_false, createdByOk]
    exact ⟨_, _, rfl, rfl, rfl⟩
  · intro amt d cat
    exact ⟨_, _, rfl, rfl, rfl⟩

theorem amount_required_sign_unconstrained_witness :
    (∃ e, insertRevenue svcStoreA 1 ⟨some 1, none, some 1, none, none, none, none⟩
      = (.error e, svcStoreA)) ∧
    (∃ r st2, insertRevenue svcStoreA 1
        ⟨some 1, some (-5), some 1, none, none, none, none⟩
      = (.ok r, st2) ∧ r.amount = -5 ∧
      st2.revenues = svcStoreA.revenues ++ [r]) ∧
    (∃ r st2, insertExpense svcStoreA 1
        ⟨none, some 0, some 1, some "variable", none, none, none, none⟩
      = (.ok r, st2) ∧ r.amount = 0 ∧
      st2.expenses = svcStoreA.expenses ++ [r]) :=
  ⟨(amount_required_sign_unconstrained svcStoreA 1).1
      ⟨some 1, none, some 1, none, none, none, none⟩ rfl,
   (amount_required_sign_unconstrained svcStoreA 1).2.2.1 1 (-5) 1
      none none none (by decide),
   (amount_required_sign_unconstrained svcStoreA 1).2.2.2 0 1 "variable"⟩

/-- C9: `Expense.category` is required: an Expense insert without a
category fails (precisely with a missing-required-field violation when the
other required fields are present), while `description` and `vendor` may
both be null on a successfully inserted row. -/
theorem expense_category_required (st : Store) (now : Nat) :
    (∀ inp : ExpenseInput, inp.category = none →
      ∃ e, insertExpense st now inp = (.error e, st)) ∧
    (∀ inp : ExpenseInput, ∀ amt d, inp.amount = some amt →
      inp.date = some d → inp.category = none →
      insertExpense st now inp = (.error (.missingRequired "category"), st)) ∧
    (∀ (amt : Int) (d : Nat) (cat : String),
      ∃ r st2, insertExpense st now
          ⟨none, some amt, some d, some cat, none, none, none, none⟩
        = (.ok r, st2) ∧ r.description = none ∧ r.vendor = none) := by
  refine ⟨?_, ?_, ?_⟩
  · intro inp hc
    cases h1 : inp.amount with
    | none =>
      exact ⟨.missingRequired "amount", by simp only [insertExpense, h1]⟩
    | some amt =>
      cases h2 : inp.date with
      | none =>
        exact ⟨.missingRequired "date", by simp only [insertExpense, h1, h2]⟩
      | some d =>
        exact ⟨.missingRequired "category",
          by simp only [insertExpense, h1, h2, hc]⟩
  · intro inp amt d h1 h2 hc
    simp only [insertExpense, h1, h2, hc]
  · intro amt d cat
    exact ⟨_, _, rfl, rfl, rfl⟩

theorem expense_category_required_witness :
    insertExpense svcStoreA 1 ⟨none, some 5, some 1, none, none, none, none, none⟩
      = (.error (.missingRequired "category"), svcStoreA) ∧
    (∃ r st2, insertExpense svcStoreA 1
        ⟨none, some 5, some 1, some "operating", none, none, none, none⟩
      = (.ok r, st2) ∧ r.description = none ∧ r.vendor = none) :=
  ⟨(expense_category_required svcStoreA 1).2.1
      ⟨none, some 5, some 1, none, none, none, none, none⟩ 5 1 rfl rfl rfl,
   (expense_category_required svcStoreA 1).2.2 5 1 "operating"⟩

end Ledger
